import Mathlib

/-!
simple_text_editor: find / find-all / replace

A shallow embedding of the search and replace routines of `src/text_editor.cpp`:
`TextEditor::find_pattern`, `TextEditor::find_all_pattern`, the menu callbacks
`menu_find_find_callback`, `menu_find_all_callback`, `menu_find_next_callback`
and `menu_find_prev_callback`, `ReplaceDialog::replace_selection`,
`ReplaceDialog::find_next_callback` and `ReplaceDialog::replace_and_find_callback`.

These routines work through the FLTK 1.4 toolkit classes `Fl_Text_Buffer`,
`Fl_Text_Selection` and `Fl_Text_Display`, which are not part of the
repository.  The toolkit calls they make (`search_forward`, `search_backward`,
`select`, `selection_position`, `remove_selection`, `remove`, `insert`,
`replace`, `text`, `loadfile`, `insert_position`) are modelled after the
toolkit's behaviour, in the sections marked "Toolkit".

Conventions of the embedding:
* a buffer is a `List Char` and a C string is the `List Char` of its characters
  before the terminating NUL; characters are taken to be one byte wide, so that
  `fl_utf8len1` is `1`, `next_char p = p + 1`, `prev_char p = p - 1`, a buffer
  offset is a list index and `strlen` is `List.length`;
* the searches run with the toolkit's default `matchCase = 0` (no call passes
  a fourth argument): characters are compared after `fl_tolower`, which on
  one-byte characters folds `A`-`Z` to `a`-`z`;
* a comparison that reaches an offset at or past the end of the buffer fails;
* `int` values that the toolkit keeps non-negative by clamping (the caret,
  positions reported by a search) are `Nat`; the start offset handed to
  `search_backward` and the fields of a selection are `Int`; lengths are taken
  to fit an `int`, and the one expression evaluated in `size_t`
  (`pos - strlen(needle) - 1`) wraps explicitly;
* `splitEditor` is never assigned anything but `nullptr`, so `selfEditor` is
  always `editor` and the editor has a single caret;
* redraws, `show_insert_position`, the window title and the `textChanged` flag
  are not part of the state; `fl_alert` shows as the `found = none` result.
-/

namespace TextEditor

/-! ## Toolkit: `Fl_Text_Selection` -/

/-- The primary selection of a text buffer (`Fl_Text_Selection`). -/
structure Selection where
  mSelected : Bool
  mStart : Int
  mEnd : Int
  deriving DecidableEq, Repr

/-- `Fl_Text_Selection::set`: the selection is active iff the two ends differ. -/
def Selection.set (startpos endpos : Int) : Selection :=
  { mSelected := decide (startpos ≠ endpos)
    mStart := min startpos endpos
    mEnd := max startpos endpos }

/-- `Fl_Text_Selection::update`: adjust a selection to a modification of the
buffer at `pos` that deleted `nDeleted` and inserted `nInserted` characters. -/
def Selection.update (sel : Selection) (pos nDeleted nInserted : Int) : Selection :=
  if sel.mSelected = false ∨ pos > sel.mEnd then sel
  else if pos + nDeleted ≤ sel.mStart then
    { sel with mStart := sel.mStart + (nInserted - nDeleted)
               mEnd := sel.mEnd + (nInserted - nDeleted) }
  else if pos ≤ sel.mStart ∧ pos + nDeleted ≥ sel.mEnd then
    { mSelected := false, mStart := pos, mEnd := pos }
  else if pos ≤ sel.mStart ∧ pos + nDeleted < sel.mEnd then
    { sel with mStart := pos, mEnd := nInserted + sel.mEnd - nDeleted }
  else if pos < sel.mEnd then
    let e := sel.mEnd + (nInserted - nDeleted)
    { sel with mEnd := e, mSelected := if e ≤ sel.mStart then false else sel.mSelected }
  else sel

/-! ## Toolkit: searching in `Fl_Text_Buffer` -/

/-- Toolkit `fl_tolower` on a one-byte character: the letters `A` to `Z` fold
to `a` to `z`, every other one-byte character to itself. -/
def fl_tolower (c : Char) : Char :=
  if 65 ≤ c.toNat ∧ c.toNat ≤ 90 then Char.ofNat (c.toNat + 32) else c

/-- The inner `for (;;)` loop of `Fl_Text_Buffer::search_forward` and
`search_backward`.  Every call in `text_editor.cpp` passes three arguments, so
the toolkit's default `matchCase = 0` selects the branch that compares
`fl_tolower(char_at(bp))` with `fl_tolower` of the needle character: the needle
is compared character by character with the buffer from offset `bp`, letter
case ignored, and reaching the end of the needle is a match.  At or past the
end of the buffer `char_at` gives NUL, which no needle character folds to. -/
def matchAt (buf : List Char) : Nat → List Char → Bool
  | _, [] => true
  | bp, c :: sp =>
    match buf[bp]? with
    | some b => if fl_tolower b = fl_tolower c then matchAt buf (bp + 1) sp else false
    | none => false

/-- The `while (startPos < length())` loop of `Fl_Text_Buffer::search_forward`;
the first argument counts the iterations that remain, `length() - startPos`. -/
def searchForwardLoop (buf needle : List Char) : Nat → Nat → Option Nat
  | 0, _ => none
  | n + 1, startPos =>
    if matchAt buf startPos needle then some startPos
    else searchForwardLoop buf needle n (startPos + 1)

/-- `Fl_Text_Buffer::search_forward(startPos, searchString, &foundPos)`:
`some foundPos` when it returns 1, `none` when it returns 0. -/
def search_forward (buf : List Char) (startPos : Nat) (needle : List Char) : Option Nat :=
  searchForwardLoop buf needle (buf.length - startPos) startPos

/-- The `while (startPos >= 0)` loop of `Fl_Text_Buffer::search_backward` for a
non-negative start: offsets `startPos, startPos - 1, ..., 0` are tried in turn
(`prev_char 0 = -1` ends the loop). -/
def searchBackwardLoop (buf needle : List Char) : Nat → Option Nat
  | 0 => if matchAt buf 0 needle then some 0 else none
  | p + 1 =>
    if matchAt buf (p + 1) needle then some (p + 1)
    else searchBackwardLoop buf needle p

/-- `Fl_Text_Buffer::search_backward(startPos, searchString, &foundPos)`:
a negative start skips the loop altogether. -/
def search_backward (buf : List Char) (startPos : Int) (needle : List Char) : Option Nat :=
  if startPos < 0 then none else searchBackwardLoop buf needle startPos.toNat

/-! ## Editor state -/

/-- The fields of `TextEditor` (and of the toolkit objects it owns) that the
search and replace routines read or write. -/
structure Editor where
  /-- Contents of `textBuffer`. -/
  textBuffer : List Char
  /-- Primary selection of `textBuffer`. -/
  selection : Selection
  /-- The caret, `editor->insert_position()`. -/
  insertPos : Nat
  /-- Contents of `styleBuffer`, the highlight mask (`'A'` plain, `'B'` matched). -/
  styleBuffer : List Char
  /-- `lastFindText`, up to its terminating NUL. -/
  lastFindText : List Char
  deriving DecidableEq, Repr

/-- State built by the `TextEditor` constructor: two empty buffers, no
selection, caret at 0, `lastFindText` filled with NUL. -/
def Editor.init : Editor :=
  { textBuffer := [], selection := ⟨false, 0, 0⟩, insertPos := 0,
    styleBuffer := [], lastFindText := [] }

/-- `Fl_Text_Buffer::select(start, end)` on `textBuffer`. -/
def Editor.select (self : Editor) (start stop : Int) : Editor :=
  { self with selection := Selection.set start stop }

/-- `Fl_Text_Display::insert_position(newPos)`: the caret is clamped to
`[0, buffer()->length()]`. -/
def Editor.insert_position (self : Editor) (newPos : Int) : Editor :=
  { self with insertPos := min newPos.toNat self.textBuffer.length }

/-- Conversion of a 64-bit `size_t` value to `int` (two's complement). -/
def toInt32 (z : Int) : Int := (z + 2 ^ 31) % 2 ^ 32 - 2 ^ 31

/-- The expression `pos - strlen(needle) - 1` of `find_pattern`: evaluated in
`size_t` (modulo `2^64`) and converted to the `int` parameter `startPos`. -/
def backwardStart (pos needleLen : Nat) : Int :=
  toInt32 (((pos : Int) - needleLen - 1) % 2 ^ 64)

/-- What a call of `find_pattern` did. -/
structure FindResult where
  /-- Editor state on return. -/
  state : Editor
  /-- `some (start, end)` when a match was selected, `none` when `fl_alert`
  reported that the pattern was not found. -/
  found : Option (Nat × Nat)
  /-- Start offsets passed to `search_forward` / `search_backward`, in call order. -/
  searches : List Int
  deriving DecidableEq, Repr

/-- The block executed when a search succeeded at `pos` (lines 386-388 and
402-404): select the match and move the caret to its end. -/
def Editor.selectMatch (self : Editor) (pos : Nat) (needle : List Char) : Editor :=
  (self.select pos ((pos : Int) + (needle.length : Int))).insert_position
    ((pos : Int) + (needle.length : Int))

/-- `TextEditor::find_pattern(needle, self, findNext)`. -/
def find_pattern (needle : List Char) (self : Editor) (findNext : Bool) : FindResult :=
  let pos := self.insertPos
  let start1 : Int := if findNext then (pos : Int) else backwardStart pos needle.length
  let first :=
    if findNext then search_forward self.textBuffer pos needle
    else search_backward self.textBuffer start1 needle
  match first with
  | some p =>
    { state := self.selectMatch p needle, found := some (p, p + needle.length),
      searches := [start1] }
  | none =>
    let start2 : Int := if findNext then 0 else (self.textBuffer.length : Int)
    let second :=
      if findNext then search_forward self.textBuffer 0 needle
      else search_backward self.textBuffer start2 needle
    match second with
    | some p =>
      { state := self.selectMatch p needle, found := some (p, p + needle.length),
        searches := [start1, start2] }
    | none => { state := self, found := none, searches := [start1, start2] }

/-- An editor whose document is `doc`, caret at `caret`, nothing selected. -/
def Editor.ofText (doc : String) (caret : Nat) : Editor :=
  { Editor.init with textBuffer := doc.toList, insertPos := caret }

/-! ## Toolkit: modifying `textBuffer` -/

/-- Caret part of `Fl_Text_Display::buffer_modified_cb` (no cursor hint
pending): the display moves its caret when the buffer changes before it. -/
def cursorAfterModify (cursor pos nInserted nDeleted : Nat) : Nat :=
  if cursor > pos then
    if cursor < pos + nDeleted then pos else cursor + nInserted - nDeleted
  else cursor

/-- `Fl_Text_Buffer::remove(start, end)` on `textBuffer`: the arguments are
ordered and clamped to the buffer, the selection and the caret follow. -/
def Editor.remove (self : Editor) (start stop : Int) : Editor :=
  let lo := if start > stop then stop else start
  let hi := if start > stop then start else stop
  let len : Int := self.textBuffer.length
  let lo := if lo > len then len else lo
  let lo := if lo < 0 then 0 else lo
  let hi := if hi > len then len else hi
  let hi := if hi < 0 then 0 else hi
  if lo = hi then self
  else
    { self with
      textBuffer := self.textBuffer.take lo.toNat ++ self.textBuffer.drop hi.toNat
      selection := self.selection.update lo (hi - lo) 0
      insertPos := cursorAfterModify self.insertPos lo.toNat 0 (hi - lo).toNat }

/-- `Fl_Text_Buffer::remove_selection()` on `textBuffer`: removes the selected
range when the selection is active. -/
def Editor.remove_selection (self : Editor) : Editor :=
  if self.selection.mSelected then self.remove self.selection.mStart self.selection.mEnd
  else self

/-- `Fl_Text_Buffer::insert(pos, text)` on `textBuffer`: nothing happens for an
empty text; the position is clamped to the buffer. -/
def Editor.insert (self : Editor) (pos : Int) (text : List Char) : Editor :=
  if text = [] then self
  else
    let len : Int := self.textBuffer.length
    let pos := if pos > len then len else pos
    let pos := if pos < 0 then 0 else pos
    { self with
      textBuffer := self.textBuffer.take pos.toNat ++ text ++ self.textBuffer.drop pos.toNat
      selection := self.selection.update pos 0 text.length
      insertPos := cursorAfterModify self.insertPos pos.toNat text.length 0 }

/-- `Fl_Text_Buffer::loadfile(path)` as called by `load_file_content`: the old
contents are selected and removed, then the file contents (`none` when the file
cannot be read) are appended. -/
def Editor.loadfile (self : Editor) (contents : Option (List Char)) : Editor :=
  let cleared := (self.select 0 self.textBuffer.length).remove_selection
  match contents with
  | none => cleared
  | some text => cleared.insert cleared.textBuffer.length text

/-! ## Toolkit: modifying `styleBuffer` -/

/-- `Fl_Text_Buffer::replace(start, end, text)` on a buffer's contents, for a
non-negative `start`: `end` is clamped to the length. -/
def bufReplace (buf : List Char) (start stop : Nat) (text : List Char) : List Char :=
  buf.take start ++ text ++ buf.drop (min stop buf.length)

/-- `std::string(textBuffer->length(), 'A')`, the all-plain mask. -/
def plainMask (self : Editor) : List Char := List.replicate self.textBuffer.length 'A'

/-! ## `TextEditor::find_all_pattern` -/

/-- The highlight loop, lines 435-437:
`for (i = pos; i < pos + needleLen; ++i) styleBuffer->replace(i, i + 1, "B")`. -/
def highlightLoop (style : List Char) (pos needleLen : Nat) : List Char :=
  (List.range' pos needleLen).foldl (fun s i => bufReplace s i (i + 1) ['B']) style

/-- The `while (found)` loop of `find_all_pattern`, lines 431-441.  The second
argument is `found` together with `pos` (`none`: the last search failed), the
others are `styleBuffer`, `totalNumber` and the list of offsets highlighted so
far.  The loop has no bound in the source: the first argument limits the
number of iterations, and `none` means the limit was hit before `found`
became 0. -/
def findAllLoop (text needle : List Char) :
    Nat → Option Nat → List Char → Nat → List Nat → Option (List Char × Nat × List Nat)
  | _, none, style, total, visited => some (style, total, visited)
  | 0, some _, _, _, _ => none
  | fuel + 1, some pos, style, total, visited =>
    findAllLoop text needle fuel
      (search_forward text (pos + needle.length) needle)
      (highlightLoop style pos needle.length) (total + 1) (visited ++ [pos])

/-- What a call of `find_all_pattern` did. -/
structure FindAllResult where
  /-- Editor state on return. -/
  state : Editor
  /-- `totalNumber` after the loop. -/
  totalNumber : Nat
  /-- The values of `pos` at which a match was highlighted, in loop order; the
  matched ranges are `(pos, pos + strlen(needle))`. -/
  visited : List Nat
  /-- Contents of `styleBuffer` at the `redraw()` of line 443. -/
  redrawn : List Char
  deriving DecidableEq, Repr

/-- `TextEditor::find_all_pattern(needle, self)`, with the iteration limit of
`findAllLoop`; `none` when the limit is hit. -/
def find_all_pattern (fuel : Nat) (needle : List Char) (self : Editor) :
    Option FindAllResult :=
  match findAllLoop self.textBuffer needle fuel (search_forward self.textBuffer 0 needle)
      (plainMask self) 0 [] with
  | none => none
  | some (style, total, visited) =>
    some
      { state := { self with styleBuffer := if total = 0 then style else plainMask self }
        totalNumber := total
        visited := visited
        redrawn := style }

/-- `fl_strlcpy(dst, src, 512)` into a `std::array<char, 512>`: at most 511
characters are kept. -/
def strlcpy512 (src : List Char) : List Char := src.take 511

/-- `TextEditor::menu_find_all_callback`: `pattern` is what `fl_input`
returned (`none` for a cancelled dialog, `some []` for an empty input). -/
def menu_find_all_callback (fuel : Nat) (pattern : Option (List Char)) (self : Editor) :
    Option FindAllResult :=
  match pattern with
  | none => some { state := self, totalNumber := 0, visited := [], redrawn := self.styleBuffer }
  | some pat => find_all_pattern fuel pat { self with lastFindText := strlcpy512 pat }

/-! ## `ReplaceDialog` -/

/-- `ReplaceDialog::replace_selection(newText, self)`, acting on the editor
`self->te`. -/
def replace_selection (newText : List Char) (te : Editor) : Editor :=
  if te.selection.mSelected then
    let start := te.selection.mStart
    let te := te.remove_selection
    let te := te.insert start newText
    let te := te.select start (start + (newText.length : Int))
    te.insert_position (start + (newText.length : Int))
  else te

/-- `ReplaceDialog::find_next_callback`: `findText` is the value of
`findTextInput`.  The result is `none` when the copied pattern is empty and no
search is made. -/
def find_next_callback (findText : List Char) (te : Editor) : Editor × Option FindResult :=
  let te := { te with lastFindText := strlcpy512 findText }
  if te.lastFindText ≠ [] then
    let r := find_pattern te.lastFindText te true
    (r.state, some r)
  else (te, none)

/-- `ReplaceDialog::replace_and_find_callback`: `replaceText` is the value of
`replaceTextInput`. -/
def replace_and_find_callback (replaceText : List Char) (te : Editor) : FindResult :=
  let te := replace_selection replaceText te
  find_pattern te.lastFindText te true

/-! ## Reachable states -/

/-- States the editor can be in: the initial state, closed under find-next and
find-previous, find-all, replace-and-find-next, and the document edits insert,
remove and load. -/
inductive Reachable : Editor → Prop
  | init : Reachable Editor.init
  | find (needle : List Char) (findNext : Bool) {e : Editor} :
      Reachable e → Reachable (find_pattern needle e findNext).state
  | findAll (fuel : Nat) (needle : List Char) {e : Editor} {r : FindAllResult} :
      Reachable e → find_all_pattern fuel needle e = some r → Reachable r.state
  | dialogFind (findText : List Char) {e : Editor} :
      Reachable e → Reachable (find_next_callback findText e).1
  | replaceAndFind (replaceText : List Char) {e : Editor} :
      Reachable e → Reachable (replace_and_find_callback replaceText e).state
  | insert (pos : Int) (text : List Char) {e : Editor} :
      Reachable e → Reachable (e.insert pos text)
  | remove (start stop : Int) {e : Editor} :
      Reachable e → Reachable (e.remove start stop)
  | load (contents : Option (List Char)) {e : Editor} :
      Reachable e → Reachable (e.loadfile contents)

/-! ## Occurrences -/

/-- The pattern `P` occurs in the document `D` at offset `k`, letter case
ignored: the characters of `D` from `k` on start with those of `P` once both
are folded with `fl_tolower`.  This is what the toolkit search matches. -/
def occursAt (D P : List Char) (k : Nat) : Prop :=
  P.map fl_tolower <+: (D.drop k).map fl_tolower

instance instDecidableOccursAt (D P : List Char) (k : Nat) : Decidable (occursAt D P k) :=
  inferInstanceAs (Decidable (P.map fl_tolower <+: (D.drop k).map fl_tolower))

/-- The pattern `P` occurs in the document `D` at offset `k` exactly
(case-sensitively), as the specification describes an occurrence: the
characters of `D` from `k` on start with `P`. -/
def occursExactly (D P : List Char) (k : Nat) : Prop := P <+: D.drop k

instance instDecidableOccursExactly (D P : List Char) (k : Nat) :
    Decidable (occursExactly D P k) :=
  inferInstanceAs (Decidable (P <+: D.drop k))

/-- The results the specification lists for `replace_and_advance`. -/
inductive AdvanceResult where
  | Found (start stop : Nat)
  | NotFound
  | NoActiveSelection
  deriving DecidableEq, Repr

/-- What `replace_and_find_callback` lets its caller observe, in the
vocabulary of `AdvanceResult`: the callback returns `void`; the find step
either selects a match or raises the not-found alert. -/
def replace_and_advance (R : List Char) (te : Editor) : AdvanceResult :=
  match (replace_and_find_callback R te).found with
  | some (start, stop) => AdvanceResult.Found start stop
  | none => AdvanceResult.NotFound

/-- States reached without editing the document after the mask was last
computed: the initial state and the state left by any find-all, closed under
find-next and find-previous (from the menu or the replace dialog) and further
find-alls. -/
inductive SearchReachable : Editor → Prop
  | init : SearchReachable Editor.init
  | findAll (fuel : Nat) (needle : List Char) (e : Editor) {r : FindAllResult} :
      find_all_pattern fuel needle e = some r → SearchReachable r.state
  | find (needle : List Char) (findNext : Bool) {e : Editor} :
      SearchReachable e → SearchReachable (find_pattern needle e findNext).state
  | dialogFind (findText : List Char) {e : Editor} :
      SearchReachable e → SearchReachable (find_next_callback findText e).1

/-! ## The find commands of the menu -/

/-- `TextEditor::menu_find_find_callback`: `pattern` is what `fl_input`
returns (`none` for a cancelled dialog).  The result is `none` when no search
is made. -/
def menu_find_find_callback (pattern : Option (List Char)) (self : Editor) :
    Editor × Option FindResult :=
  match pattern with
  | none => (self, none)
  | some pat =>
    let r := find_pattern pat { self with lastFindText := strlcpy512 pat } true
    (r.state, some r)

/-- `TextEditor::menu_find_prev_callback`: find-previous for `lastFindText`, or
the find dialog when there is no last pattern. -/
def menu_find_prev_callback (pattern : Option (List Char)) (self : Editor) :
    Editor × Option FindResult :=
  if self.lastFindText ≠ [] then
    let r := find_pattern self.lastFindText self false
    (r.state, some r)
  else menu_find_find_callback pattern self

theorem findAllLoop_mono {D P : List Char} (fuel : Nat) :
    ∀ (fuel2 : Nat) (found : Option Nat) (style : List Char) (total : Nat)
      (visited : List Nat) (x : List Char × Nat × List Nat), fuel ≤ fuel2 →
      findAllLoop D P fuel found style total visited = some x →
      findAllLoop D P fuel2 found style total visited = some x := by
  induction fuel with
  | zero =>
    intro fuel2 found style total visited x _ h
    cases found with
    | none => cases fuel2 <;> simpa [findAllLoop] using h
    | some pos => simp [findAllLoop] at h
  | succ fuel ih =>
    intro fuel2 found style total visited x hle h
    cases found with
    | none => cases fuel2 <;> simpa [findAllLoop] using h
    | some pos =>
      obtain ⟨n, rfl⟩ : ∃ n, fuel2 = n + 1 := ⟨fuel2 - 1, by omega⟩
      rw [findAllLoop] at h ⊢
      exact ih n _ _ _ _ x (by omega) h

theorem remove_active (te : Editor) (s e : Nat)
    (hsel : te.selection = ⟨true, s, e⟩) (hse : s < e) (he : e ≤ te.textBuffer.length) :
    te.remove_selection =
      { te with textBuffer := te.textBuffer.take s ++ te.textBuffer.drop e
                selection := ⟨false, s, s⟩
                insertPos := cursorAfterModify te.insertPos s 0 (e - s) } := by
  obtain ⟨text, sel, caret, style, last⟩ := te
  simp only at hsel he
  subst hsel
  unfold Editor.remove_selection Editor.remove
  have c1 : ¬ ((s : Int) > (e : Int)) := by omega
  have c2 : ¬ ((s : Int) > (text.length : Int)) := by omega
  have c3 : ¬ ((s : Int) < 0) := by omega
  have c4 : ¬ ((e : Int) > (text.length : Int)) := by omega
  have c5 : ¬ ((e : Int) < 0) := by omega
  have c6 : ¬ ((s : Int) = (e : Int)) := by omega
  simp only [if_true, c1, c2, c3, c4, c5, c6, if_false]
  have u : Selection.update ⟨true, s, e⟩ s ((e : Int) - s) 0 = ⟨false, s, s⟩ := by
    unfold Selection.update
    have d1 : ¬ ((s : Int) > (e : Int)) := by omega
    have d2 : ¬ ((s : Int) + ((e : Int) - s) ≤ s) := by omega
    have d3 : (s : Int) ≤ s ∧ (s : Int) + ((e : Int) - s) ≥ e := by omega
    simp only [Bool.true_eq_false, false_or, d1, d2, d3, if_false, if_true, and_self]
  rw [u]
  congr 1
  have : ((e : Int) - (s : Int)).toNat = e - s := by omega
  simp [this]

theorem remove_inactive_eq (te : Editor) (s : Nat) (hsel : te.selection = ⟨true, s, s⟩) :
    te.remove_selection = te := by
  obtain ⟨text, sel, caret, style, last⟩ := te
  simp only at hsel
  subst hsel
  unfold Editor.remove_selection Editor.remove
  simp only [if_true, gt_iff_lt, lt_self_iff_false, if_false]


theorem insert_at (te : Editor) (s : Nat) (R : List Char) (hR : R ≠ [])
    (hs : s ≤ te.textBuffer.length) :
    te.insert s R =
      { te with textBuffer := te.textBuffer.take s ++ R ++ te.textBuffer.drop s
                selection := te.selection.update s 0 R.length
                insertPos := cursorAfterModify te.insertPos s R.length 0 } := by
  unfold Editor.insert
  have c2 : ¬ ((s : Int) > (te.textBuffer.length : Int)) := by omega
  have c3 : ¬ ((s : Int) < 0) := by omega
  simp only [hR, c2, c3, if_false, Int.toNat_ofNat]

theorem select_insert_position (te : Editor) (s n : Nat) (hs : s + n ≤ te.textBuffer.length) :
    (te.select s ((s : Int) + (n : Int))).insert_position ((s : Int) + (n : Int)) =
      { te with selection := ⟨decide (n ≠ 0), s, s + n⟩, insertPos := s + n } := by
  unfold Editor.select Editor.insert_position Selection.set
  have e1 : ((s : Int) + (n : Int)).toNat = s + n := by omega
  have e2 : min (s : Int) ((s : Int) + (n : Int)) = s := by omega
  have e3 : max (s : Int) ((s : Int) + (n : Int)) = (s : Int) + n := by omega
  have e4 : decide ((s : Int) ≠ (s : Int) + (n : Int)) = decide (n ≠ 0) := by
    apply decide_eq_decide.mpr; omega
  simp only [e1, e2, e3, e4]
  congr 1
  omega

theorem replace_selection_state (te : Editor) (R : List Char) (s e : Nat)
    (hsel : te.selection = ⟨true, s, e⟩) (hse : s ≤ e) (he : e ≤ te.textBuffer.length) :
    replace_selection R te =
      { te with textBuffer := te.textBuffer.take s ++ R ++ te.textBuffer.drop e
                selection := ⟨decide (R.length ≠ 0), s, s + R.length⟩
                insertPos := s + R.length } := by
  have hsel1 : te.selection.mSelected = true := by rw [hsel]
  have hsel2 : te.selection.mStart = s := by rw [hsel]
  unfold replace_selection
  simp only [hsel1, if_true, hsel2]
  -- the buffer after `remove_selection`
  have hrem : ∃ te1 : Editor, te.remove_selection = te1 ∧
      te1.textBuffer = te.textBuffer.take s ++ te.textBuffer.drop e ∧
      te1.styleBuffer = te.styleBuffer ∧ te1.lastFindText = te.lastFindText := by
    rcases Nat.eq_or_lt_of_le hse with heq | hlt
    · subst heq
      exact ⟨te, remove_inactive_eq te s hsel, (List.take_append_drop s _).symm, rfl, rfl⟩
    · exact ⟨_, remove_active te s e hsel hlt he, rfl, rfl, rfl⟩
  obtain ⟨te1, h1, ht1, hs1, hl1⟩ := hrem
  rw [h1]
  have hlen1 : s ≤ te1.textBuffer.length := by
    rw [ht1, List.length_append, List.length_take]; omega
  have htake : te1.textBuffer.take s = te.textBuffer.take s := by
    rw [ht1, List.take_append_of_le_length (by rw [List.length_take]; omega),
      List.take_take, Nat.min_self]
  have hdrop : te1.textBuffer.drop s = te.textBuffer.drop e := by
    rw [ht1, List.drop_append_of_le_length (by rw [List.length_take]; omega)]
    have : (List.take s te.textBuffer).drop s = [] := by
      apply List.drop_eq_nil_of_le; rw [List.length_take]; omega
    rw [this, List.nil_append]
  -- the buffer after `insert`
  have hins : ∃ te2 : Editor, te1.insert s R = te2 ∧
      te2.textBuffer = te.textBuffer.take s ++ R ++ te.textBuffer.drop e ∧
      te2.styleBuffer = te.styleBuffer ∧ te2.lastFindText = te.lastFindText := by
    by_cases hR : R = []
    · subst hR
      refine ⟨te1, by simp [Editor.insert], ?_, hs1, hl1⟩
      rw [ht1]; simp
    · refine ⟨_, insert_at te1 s R hR hlen1, ?_, hs1, hl1⟩
      simp only [htake, hdrop]
  obtain ⟨te2, h2, ht2, hs2, hl2⟩ := hins
  rw [h2, select_insert_position te2 s R.length
    (by rw [ht2]; simp only [List.length_append, List.length_take]; omega)]
  obtain ⟨t2, sel2, c2, st2, l2⟩ := te2
  obtain ⟨t, sel, c, st, l⟩ := te
  simp only at ht2 hs2 hl2
  subst ht2 hs2 hl2
  rfl


/-- C4: with an active selection `(s, e)`, the replace step turns the document
`D` into `D[0..s) ++ R ++ D[e..)`, sets the selection range to
`(s, s + length R)` (an active selection exactly when `R` is non-empty) and the
caret to `s + length R`; the chained find-next of `replace_and_find_callback`
starts from that state, with the last search pattern. -/
theorem replace_selection_active (te : Editor) (R : List Char) (s e : Nat)
    (hsel : te.selection = ⟨true, s, e⟩) (hse : s ≤ e) (he : e ≤ te.textBuffer.length) :
    (replace_selection R te).textBuffer
        = te.textBuffer.take s ++ R ++ te.textBuffer.drop e ∧
      (replace_selection R te).selection.mStart = s ∧
      (replace_selection R te).selection.mEnd = s + R.length ∧
      ((replace_selection R te).selection.mSelected = true ↔ R ≠ []) ∧
      (replace_selection R te).insertPos = s + R.length ∧
      replace_and_find_callback R te
        = find_pattern (replace_selection R te).lastFindText (replace_selection R te) true := by
  rw [replace_selection_state te R s e hsel hse he]
  refine ⟨rfl, rfl, by simp, ?_, rfl, ?_⟩
  · simp
  · unfold replace_and_find_callback
    rw [replace_selection_state te R s e hsel hse he]

theorem replace_selection_active_witness :
    ({ Editor.ofText "foo foo" 3 with selection := ⟨true, 0, 3⟩ } : Editor).selection
        = ⟨true, (0 : Nat), (3 : Nat)⟩ ∧
      (replace_selection "quux".toList
        { Editor.ofText "foo foo" 3 with selection := ⟨true, 0, 3⟩ }).textBuffer
        = "quux foo".toList ∧
      (replace_selection "quux".toList
        { Editor.ofText "foo foo" 3 with selection := ⟨true, 0, 3⟩ }).insertPos = 4 :=
  have h := replace_selection_active
    { Editor.ofText "foo foo" 3 with selection := ⟨true, 0, 3⟩ } "quux".toList 0 3 rfl
    (by decide) (by decide)
  ⟨rfl, h.1.trans (by decide), h.2.2.2.2.1⟩

theorem find_pattern_buffers (P : List Char) (te : Editor) (findNext : Bool) :
    (find_pattern P te findNext).state.textBuffer = te.textBuffer ∧
      (find_pattern P te findNext).state.styleBuffer = te.styleBuffer ∧
      (find_pattern P te findNext).state.lastFindText = te.lastFindText := by
  unfold find_pattern
  simp only
  split
  · exact ⟨rfl, rfl, rfl⟩
  · split
    · exact ⟨rfl, rfl, rfl⟩
    · exact ⟨rfl, rfl, rfl⟩

/-- C6, as stated, fails: with no selection active and the last pattern
present in the document, `replace_and_find_callback` runs the find step and
selects a match; what its caller observes is `Found`, not `NoActiveSelection`. -/
theorem replace_without_selection_result_is_find_result :
    ({ Editor.ofText "foo" 0 with lastFindText := "foo".toList } : Editor).selection.mSelected
        = false ∧
      replace_and_advance "bar".toList { Editor.ofText "foo" 0 with lastFindText := "foo".toList }
        = AdvanceResult.Found 0 3 ∧
      ¬ (replace_and_advance "bar".toList
          { Editor.ofText "foo" 0 with lastFindText := "foo".toList }
        = AdvanceResult.NoActiveSelection) := by
  decide

/-- C6, amended: with no selection active the replace step does nothing, the
call is exactly the find step for the last search pattern, the document is
unchanged, and the observable result is that find's `Found` or `NotFound`,
never `NoActiveSelection`. -/
theorem replace_without_selection (te : Editor) (R : List Char)
    (hsel : te.selection.mSelected = false) :
    replace_selection R te = te ∧
      replace_and_find_callback R te = find_pattern te.lastFindText te true ∧
      (replace_and_find_callback R te).state.textBuffer = te.textBuffer ∧
      replace_and_advance R te ≠ AdvanceResult.NoActiveSelection := by
  have h1 : replace_selection R te = te := by
    unfold replace_selection
    rw [if_neg (by simp [hsel])]
  have h2 : replace_and_find_callback R te = find_pattern te.lastFindText te true := by
    unfold replace_and_find_callback
    simp only [h1]
  refine ⟨h1, h2, ?_, ?_⟩
  · rw [h2]; exact (find_pattern_buffers _ _ _).1
  · unfold replace_and_advance
    split <;> simp

theorem replace_without_selection_witness :
    (Editor.ofText "foo" 0).selection.mSelected = false ∧
      (replace_and_find_callback "bar".toList (Editor.ofText "foo" 0)).state.textBuffer
        = "foo".toList :=
  ⟨rfl, (replace_without_selection (Editor.ofText "foo" 0) "bar".toList rfl).2.2.1⟩

/-! ## Find all with an empty pattern -/

theorem findAllLoop_empty_needle {text : List Char} (h : text ≠ []) (fuel : Nat) :
    ∀ (style : List Char) (total : Nat) (visited : List Nat),
      findAllLoop text [] fuel (some 0) style total visited = none := by
  have hs : search_forward text 0 [] = some 0 := by
    obtain ⟨c, cs, rfl⟩ := List.exists_cons_of_ne_nil h
    simp [search_forward, searchForwardLoop, matchAt]
  induction fuel with
  | zero => intro _ _ _; rfl
  | succ fuel ih =>
    intro style total visited
    rw [findAllLoop, List.length_nil, Nat.add_zero, hs]
    exact ih _ _ _

/-- C7, at the failing input: find-all with the empty pattern on the document
`"a"` never leaves its `while (found)` loop, whatever the iteration limit. -/
theorem find_all_empty_pattern_never_returns :
    ∀ fuel : Nat, menu_find_all_callback fuel (some []) (Editor.ofText "a" 0) = none := by
  intro fuel
  have hs : search_forward ['a'] 0 [] = some 0 := by decide
  simp only [menu_find_all_callback, find_all_pattern, Editor.ofText, String.toList]
  rw [hs, findAllLoop_empty_needle (by simp) fuel]

/-! ## Mask length -/

theorem findAllLoop_total (text needle : List Char) (fuel : Nat) :
    ∀ (found : Option Nat) (style : List Char) (total : Nat) (visited : List Nat)
      (x : List Char × Nat × List Nat),
      findAllLoop text needle fuel found style total visited = some x →
      (found = none ∧ x = (style, total, visited)) ∨ (found ≠ none ∧ total < x.2.1) := by
  induction fuel with
  | zero =>
    intro found style total visited x h
    cases found with
    | none => left; simp [findAllLoop] at h; exact ⟨rfl, h.symm⟩
    | some pos => simp [findAllLoop] at h
  | succ fuel ih =>
    intro found style total visited x h
    cases found with
    | none => left; simp [findAllLoop] at h; exact ⟨rfl, h.symm⟩
    | some pos =>
      right
      rw [findAllLoop] at h
      rcases ih _ _ _ _ x h with ⟨_, rfl⟩ | ⟨_, hlt⟩
      · exact ⟨by simp, by simp⟩
      · exact ⟨by simp, by omega⟩

theorem find_all_pattern_mask {fuel : Nat} {needle : List Char} {e : Editor}
    {r : FindAllResult} (h : find_all_pattern fuel needle e = some r) :
    r.state.styleBuffer = plainMask e ∧ r.state.textBuffer = e.textBuffer := by
  unfold find_all_pattern at h
  split at h
  · cases h
  · rename_i style total visited heq
    simp only [Option.some.injEq] at h
    subst h
    refine ⟨?_, rfl⟩
    rcases findAllLoop_total _ _ _ _ _ _ _ _ heq with ⟨_, hx⟩ | ⟨_, hlt⟩
    · simp only [Prod.mk.injEq] at hx
      obtain ⟨rfl, rfl, _⟩ := hx
      simp
    · have : total ≠ 0 := by simp at hlt; omega
      simp [this]

/-- C8, as stated, fails: inserting one character into the initial document is
a reachable state in which the mask is still empty. -/
theorem mask_length_not_invariant :
    ¬ ∀ e : Editor, Reachable e → e.styleBuffer.length = e.textBuffer.length := by
  intro h
  have := h _ (Reachable.insert 0 ['a'] Reachable.init)
  revert this
  decide

/-- C8, amended: in the initial state and in the state left by any find-all,
and after any further find-next, find-previous and find-all, the highlight
mask has exactly the length of the document. -/
theorem mask_length_after_searches (e : Editor) (h : SearchReachable e) :
    e.styleBuffer.length = e.textBuffer.length := by
  induction h with
  | init => rfl
  | findAll fuel needle e0 hr =>
    obtain ⟨h1, h2⟩ := find_all_pattern_mask hr
    rw [h1, h2, plainMask, List.length_replicate]
  | find needle findNext _ ih =>
    obtain ⟨h1, h2, _⟩ := find_pattern_buffers needle _ findNext
    rw [h1, h2, ih]
  | @dialogFind findText e1 _ ih =>
    unfold find_next_callback
    simp only
    split
    · obtain ⟨h1, h2, _⟩ := find_pattern_buffers (strlcpy512 findText)
        { e1 with lastFindText := strlcpy512 findText } true
      rw [h1, h2]; exact ih
    · exact ih


theorem mask_length_after_searches_witness :
    SearchReachable
        (find_pattern "ab".toList
          { Editor.ofText "abcab" 0 with styleBuffer := "AAAAA".toList } false).state ∧
      (find_pattern "ab".toList
          { Editor.ofText "abcab" 0 with styleBuffer := "AAAAA".toList } false).state.textBuffer
        = "abcab".toList ∧
      (find_pattern "ab".toList
          { Editor.ofText "abcab" 0 with styleBuffer := "AAAAA".toList }
            false).state.styleBuffer.length
        = (find_pattern "ab".toList
          { Editor.ofText "abcab" 0 with styleBuffer := "AAAAA".toList }
            false).state.textBuffer.length :=
  have hall : find_all_pattern 6 "ab".toList (Editor.ofText "abcab" 0)
      = some ⟨{ Editor.ofText "abcab" 0 with styleBuffer := "AAAAA".toList }, 2, [0, 3],
          "BBABB".toList⟩ := by decide
  have hreach := SearchReachable.find "ab".toList false
    (SearchReachable.findAll 6 "ab".toList (Editor.ofText "abcab" 0) hall)
  ⟨hreach, by decide, mask_length_after_searches _ hreach⟩

theorem find_all_pattern_mono {fuel fuel2 : Nat} {needle : List Char} {e : Editor}
    {r : FindAllResult} (h : find_all_pattern fuel needle e = some r) (hle : fuel ≤ fuel2) :
    find_all_pattern fuel2 needle e = some r := by
  unfold find_all_pattern at h ⊢
  split at h
  · cases h
  · rename_i style total visited heq
    rw [findAllLoop_mono fuel fuel2 _ _ _ _ _ hle heq]
    exact h

/-! ## The end-to-end examples -/

/-- C9, as stated, fails: on `"abcabc"` with the caret at 6, backward find of
`"abc"` does not give `(3, 6)` first and `(0, 3)` next. -/
theorem find_previous_first_is_not_nearest :
    ¬ ((find_pattern "abc".toList (Editor.ofText "abcabc" 6) false).found = some (3, 6) ∧
        (find_pattern "abc".toList
          (find_pattern "abc".toList (Editor.ofText "abcabc" 6) false).state false).found
          = some (0, 3)) := by
  decide

/-- C9, amended: on `"abcabc"` with the caret at 6, backward find of `"abc"`
starts at offset `6 - 3 - 1 = 2`, skips the occurrence ending at the caret and
selects `(0, 3)`, leaving the caret at 3; the next backward find starts at
`-1`, wraps to the end of the document and selects `(3, 6)`. -/
theorem find_previous_abcabc :
    (find_pattern "abc".toList (Editor.ofText "abcabc" 6) false).found = some (0, 3) ∧
      (find_pattern "abc".toList (Editor.ofText "abcabc" 6) false).searches = [2] ∧
      (find_pattern "abc".toList (Editor.ofText "abcabc" 6) false).state.insertPos = 3 ∧
      (find_pattern "abc".toList
        (find_pattern "abc".toList (Editor.ofText "abcabc" 6) false).state false).found
        = some (3, 6) ∧
      (find_pattern "abc".toList
        (find_pattern "abc".toList (Editor.ofText "abcabc" 6) false).state false).searches
        = [-1, 6] := by
  decide

/-- C10, as stated, fails: find-all of `"at"` on `"the cat sat on the mat"`
does not visit the offsets `{5, 17, 20}`. -/
theorem find_all_at_offsets_not_5_17_20 :
    ¬ ∃ r, find_all_pattern 23 "at".toList (Editor.ofText "the cat sat on the mat" 0) = some r ∧
      r.totalNumber = 3 ∧ ∀ k, k ∈ r.visited ↔ k ∈ [5, 17, 20] := by
  rintro ⟨r, h1, _, h3⟩
  have hr : find_all_pattern 23 "at".toList (Editor.ofText "the cat sat on the mat" 0)
      = some ⟨{ Editor.ofText "the cat sat on the mat" 0 with
                styleBuffer := List.replicate 22 'A' }, 3, [5, 9, 20],
              "AAAAABBAABBAAAAAAAAABB".toList⟩ := by decide
  rw [hr] at h1
  cases h1
  exact absurd ((h3 17).mpr (by decide)) (by decide)

/-- C10, amended: find-all of `"at"` on `"the cat sat on the mat"` yields
exactly 3 matches, at the start offsets 5, 9 and 20 (for every iteration limit
from 23 on). -/
theorem find_all_at_offsets :
    ∀ n : Nat, ∃ r,
      find_all_pattern (23 + n) "at".toList (Editor.ofText "the cat sat on the mat" 0) = some r ∧
      r.totalNumber = 3 ∧ r.visited = [5, 9, 20] := by
  intro n
  have hr : find_all_pattern 23 "at".toList (Editor.ofText "the cat sat on the mat" 0)
      = some ⟨{ Editor.ofText "the cat sat on the mat" 0 with
                styleBuffer := List.replicate 22 'A' }, 3, [5, 9, 20],
              "AAAAABBAABBAAAAAAAAABB".toList⟩ := by decide
  exact ⟨_, find_all_pattern_mono hr (Nat.le_add_right 23 n), rfl, rfl⟩


/-! ## Visiting occurrences with find next -/

end TextEditor
